import Mathlib

/-!
# Verification of `sparkySuppress.py`

A shallow embedding of the suppression-list management tool
(`sparkySuppress.py`) in Lean 4, together with theorems settling the
specification claims about it.

Modelling conventions:
* HTTP traffic is abstracted by oracles: a response stream `Nat → Resp`
  for the retry loops (the `n`-th call made by a loop gets the `n`-th
  response), a per-batch status function for the single PUT of the
  upsert action, and a per-recipient final-status function for delete.
* Python `while True`-style retry loops are modelled with explicit fuel;
  `none` means the loop is still running after that many iterations.
* `exit(1)` / uncaught exceptions are modelled by `Option` (`none` = the
  run aborts) or by a dedicated constructor where the distinction
  between "gave up cleanly" and "crashed" matters (`PyResult`).
* Machine integers do not overflow in the source's ranges, so counters
  are `Nat`.
-/

namespace SparkySuppress

/-- Line 16: recognised plain field names for the .csv file. -/
def fieldNames : List String :=
  ["recipient", "type", "source", "description", "created", "updated", "subaccount_id"]

/-- Line 15: recognised flag field names. -/
def flagNames : List String := ["transactional", "non_transactional"]

/-- The ASCII whitespace characters Python `str.strip()` removes. -/
def isSpaceChar (c : Char) : Bool :=
  c == ' ' || c == Char.ofNat 9 || c == Char.ofNat 10 || c == Char.ofNat 13 ||
    c == Char.ofNat 11 || c == Char.ofNat 12

/-- Python `str.strip()`: drop leading and trailing whitespace
(defined over the character list so that it evaluates by reduction). -/
def pyStrip (s : String) : String :=
  String.mk (((s.data.dropWhile isSpaceChar).reverse.dropWhile isSpaceChar).reverse)

/-- Python `str.lower()` for the ASCII alphabet (defined over the
character list so that it evaluates by reduction). -/
def pyLower (s : String) : String := String.mk (s.data.map Char.toLower)

/-- A double-quote character, by code point. -/
def dquoteChar : Char := Char.ofNat 34

/-- A single-quote character, by code point. -/
def squoteChar : Char := Char.ofNat 39

/-- Lines 60-63: strip one pair of matching surrounding quotes
(single or double), if present: `s[1:-1]` drops the first and last
characters. -/
def stripQuotes (s : String) : String :=
  if (s.data.head? == some dquoteChar && s.data.getLast? == some dquoteChar)
      || (s.data.head? == some squoteChar && s.data.getLast? == some squoteChar) then
    String.mk ((s.data.drop 1).dropLast)
  else s

/-- `distutils.util.strtobool` as used on line 339: lower-cases its
argument and maps the recognised boolean-like tokens; any other string
raises `ValueError`, modelled as `none`. -/
def strtobool (s : String) : Option Bool :=
  let v := pyLower s
  if v == "y" || v == "yes" || v == "t" || v == "true" || v == "on" || v == "1" then
    some true
  else if v == "n" || v == "no" || v == "f" || v == "false" || v == "off" || v == "0" then
    some false
  else none

/-- Python `str.title()` (line 338), for the ASCII alphabet: the first
letter of each alphabetic run is upper-cased, the rest lower-cased. -/
def pyTitleGo : Bool → List Char → List Char
  | _, [] => []
  | prevAlpha, c :: cs =>
    if c.isAlpha then
      (if prevAlpha then c.toLower else c.toUpper) :: pyTitleGo true cs
    else
      c :: pyTitleGo false cs

/-- Python `str.title()` on a string. -/
def pyTitle (s : String) : String := String.mk (pyTitleGo false s.data)

/-! ## Rate-limited HTTP client (lines 66-91 and 136-147) -/

/-- An HTTP response as the retry loops observe it: the status code,
the `errors[0].message` field of the JSON payload, and an opaque body
identifier standing for the parsed JSON page / raw body. -/
structure Resp where
  status_code : Nat
  errMsg : String
  body : Nat
deriving DecidableEq, Repr

/-- One observable step of a retry loop: either the loop returns a
value, or it goes around again after sleeping `sleep` seconds. -/
inductive StepRes (α : Type) where
  | done (a : α)
  | again (sleep : Nat)
deriving DecidableEq, Repr

/-- Lines 77-87, the body of `getSuppressionList`'s `while` loop:
status 200 returns the JSON page; a 429 whose payload message is
`Too many requests` sleeps 120 seconds and retries; a 429 with any
other message falls through the inner `if` and retries immediately
with no sleep; any other status prints the error and returns `None`. -/
def getSuppStep (r : Resp) : StepRes (Option Nat) :=
  if r.status_code == 200 then
    .done (some r.body)
  else if r.status_code == 429 then
    if r.errMsg == "Too many requests" then .again 120 else .again 0
  else
    .done none

/-- Lines 72-87: the retry loop of `getSuppressionList`, driven by the
response stream and fuel. `none` means the loop is still running after
`fuel` responses; `some a` means the call returned `a` (itself an
`Option`: `none` there is the error return `None` of line 87). -/
def getSuppressionList (stream : Nat → Resp) : Nat → Nat → Option (Option Nat)
  | 0, _ => none
  | fuel + 1, i =>
    match getSuppStep (stream i) with
    | .done a => some a
    | .again _ => getSuppressionList stream fuel (i + 1)

/-- Lines 138-147, the body of `deleter.run`'s `while` loop: a 429
whose payload message is `Too many requests` sleeps 10 seconds and
retries; a 429 with any other message retries immediately with no
sleep; any other status (success 204 included) stores the response and
returns. -/
def deleterStep (r : Resp) : StepRes Resp :=
  if r.status_code == 429 then
    if r.errMsg == "Too many requests" then .again 10 else .again 0
  else
    .done r

/-- Lines 136-147: the retry loop of `deleter.run`; `some r` is the
response stored into `self.res` when the loop returns. -/
def deleterRun (stream : Nat → Resp) : Nat → Nat → Option Resp
  | 0, _ => none
  | fuel + 1, i =>
    match deleterStep (stream i) with
    | .done r => some r
    | .again _ => deleterRun stream fuel (i + 1)

/-! ## Upsert action (lines 93-122) -/

/-- The outcome of a Python call that can crash with an uncaught
exception: `ok a` is a normal return, `typeError` is an uncaught
`TypeError` propagating out of the call. -/
inductive PyResult (α : Type) where
  | ok (a : α)
  | typeError
deriving DecidableEq, Repr

/-- Lines 93-122, `updateSuppressionList`. The single PUT of line 103
is abstracted by `putStatus`, giving the HTTP status for the batch.
Returns `ok (count, reports)` where `count` is the returned success
count and `reports` collects the batches printed by the
`could not update` message of line 112.

On a non-200 status with at least 2 records, lines 116-117 call
`updateSuppressionList(recipBatch[:half], uri, apiKey)` — with only
three arguments, while the function's signature (line 93) has four
required positional parameters.  Python raises
`TypeError: updateSuppressionList() missing 1 required positional
argument: 'subaccount_id'` at that call, before any half is retried;
the surrounding handler only catches `ConnectionError`, so the
exception propagates.  This is modelled by `typeError`. -/
def updateSuppressionList {α : Type} (putStatus : List α → Nat) (recipBatch : List α) :
    PyResult (Nat × List (List α)) :=
  if putStatus recipBatch == 200 then
    .ok (recipBatch.length, [])
  else if recipBatch.length < 2 then
    .ok (0, [recipBatch])
  else
    .typeError

/-! ## Delete action (lines 170-214) -/

/-- Lines 170-195, `threadAction`.  `respond r` is the final HTTP
status observed for recipient `r` once its `deleter.run` loop has
returned (so it is never 429).  The assertion of line 171,
`len(recipBatch) <= persist.size()`, is modelled by returning `none`
(an uncaught `AssertionError`) when the batch exceeds the pool size
`Nthreads`; otherwise the count of 204 responses is returned
(lines 183-195). -/
def threadAction {α : Type} (respond : α → Nat) (Nthreads : Nat) (recipBatch : List α) :
    Option Nat :=
  if recipBatch.length ≤ Nthreads then
    some (recipBatch.countP (fun r => respond r == 204))
  else
    none

/-- Lines 203-210, the mini-batch collection loop of
`deleteSuppressionList`: `pending` is `threadRecips`, `done` is
`doneCount`.  Each recipient is appended; once the mini-batch length
reaches `Nthreads` it is dispatched through `threadAction` and emptied.
A `none` from `threadAction` (assertion failure) aborts the run. -/
def deleteGo {α : Type} (respond : α → Nat) (Nthreads : Nat) :
    List α → List α → Nat → Option Nat
  | [], pending, done =>
    if 0 < pending.length then
      (threadAction respond Nthreads pending).map (fun b => done + b)
    else
      some done
  | r :: rs, pending, done =>
    let pending2 := pending ++ [r]
    if Nthreads ≤ pending2.length then
      match threadAction respond Nthreads pending2 with
      | none => none
      | some b => deleteGo respond Nthreads rs [] (done + b)
    else
      deleteGo respond Nthreads rs pending2 done

/-- Lines 197-214, `deleteSuppressionList`: slice the batch into
mini-batches of `Nthreads`, dispatch each sequentially, sum the
per-mini-batch success counts. -/
def deleteSuppressionList {α : Type} (respond : α → Nat) (Nthreads : Nat)
    (recipBatch : List α) : Option Nat :=
  deleteGo respond Nthreads recipBatch [] 0

/-! ## Row normaliser and dedup/batch accumulator (lines 269-385) -/

/-- A cell value held in a row dict: Python stores strings, and the
old-style flag conversion of line 339 replaces a string by a bool. -/
inductive RVal where
  | s (v : String)
  | b (v : Bool)
deriving DecidableEq, Repr

/-- The string carried by an `RVal`; flag booleans render as Python
`str(bool)` would. -/
def RVal.str : RVal → String
  | .s v => v
  | .b v => if v then "True" else "False"

/-- A row dict (`row = {}` of line 306): an association list from field
name to value, insertion-ordered like a Python dict. -/
abbrev Row := List (String × RVal)

/-- Python dict assignment `d[k] = v`: overwrite the entry in place if
the key exists (keys are unique in a dict, so overwriting the first
occurrence is the general case), else append at the end, preserving
insertion order. -/
def rowSet : Row → String → RVal → Row
  | [], k, v => [(k, v)]
  | p :: ds, k, v => if p.1 == k then (k, v) :: ds else p :: rowSet ds k v

/-- Python dict lookup `d[k]` / membership `k in d`. -/
def rowGet (d : Row) (k : String) : Option RVal :=
  (d.find? (fun p => p.1 == k)).map (fun p => p.2)

/-- Lines 306-310: build the row dict from the header and the cell
list, stripping whitespace and keeping only non-empty cells.
(The caller has already checked the two lists have equal length.) -/
def buildRow (hdr cells : List String) : Row :=
  (List.zip hdr cells).foldl
    (fun row hc =>
      let v := pyStrip hc.2
      if v == "" then row else rowSet row hc.1 (.s v))
    []

/-- The per-line diagnostics printed while processing a data row
(lines 322, 331, 342, 344, 365), stripped of their formatting. -/
inductive Diag where
  | invalidEmail (line : Nat) (recip : String)
  | invalidType (line : Nat) (t : String)
  | invalidFlagBool (line : Nat)
  | needFlags (line : Nat)
  | skipDuplicate (line : Nat) (u : String × Option String)
deriving DecidableEq, Repr

/-- Is this diagnostic the invalid-recipient message of line 322 (the
only per-line diagnostic about the recipient field)? -/
def Diag.aboutRecipient : Diag → Bool
  | .invalidEmail _ _ => true
  | _ => false

/-- Result of the recipient check, lines 313-323. -/
structure RecipRes where
  row : Row
  recipOK : Bool
  diags : List Diag
  badInc : Nat
deriving Repr

/-- Lines 313-323: validate and normalise the `recipient` field.  The
external `validate_email` library call (deliverability checks off) is
abstracted by `validateEmail`, returning the normalised address on
success; the code then forces it to lower case.  An invalid address
prints a diagnostic and bumps `badRecips`; a missing/empty recipient
cell leaves `recipOK` false silently. -/
def checkRecip (validateEmail : String → Option String) (line : Nat) (row : Row) : RecipRes :=
  match rowGet row "recipient" with
  | some v =>
    match validateEmail v.str with
    | some e => ⟨rowSet row "recipient" (.s (pyLower e)), true, [], 0⟩
    | none => ⟨row, false, [.invalidEmail line v.str], 1⟩
  | none => ⟨row, false, [], 0⟩

/-- Result of the flags check, lines 325-344. -/
structure FlagsRes where
  row : Row
  flagsOK : Bool
  diags : List Diag
deriving Repr

/-- Lines 325-344: resolve the type flags.  A present `type` field is
lower-cased and quote-stripped and must be one of `flagNames`;
otherwise both old-style flags must be present and convert through
`strtobool` (after title-casing and quote-stripping, each converted
in place before the next is attempted, mirroring the mutation order
of the `for` loop in the `try` block). -/
def checkFlags (line : Nat) (row : Row) : FlagsRes :=
  match rowGet row "type" with
  | some v =>
    let t2 := stripQuotes (pyLower v.str)
    let row2 := rowSet row "type" (.s t2)
    if t2 == "transactional" || t2 == "non_transactional" then
      ⟨row2, true, []⟩
    else
      ⟨row2, false, [.invalidType line t2]⟩
  | none =>
    if (rowGet row "transactional").isSome && (rowGet row "non_transactional").isSome then
      let s0 := stripQuotes (pyTitle ((rowGet row "transactional").getD (.s "")).str)
      let r1 := rowSet row "transactional" (.s s0)
      match strtobool s0 with
      | none => ⟨r1, false, [.invalidFlagBool line]⟩
      | some b0 =>
        let r2 := rowSet r1 "transactional" (.b b0)
        let s1 := stripQuotes (pyTitle ((rowGet r2 "non_transactional").getD (.s "")).str)
        let r3 := rowSet r2 "non_transactional" (.s s1)
        match strtobool s1 with
        | none => ⟨r3, false, [.invalidFlagBool line]⟩
        | some b1 => ⟨rowSet r3 "non_transactional" (.b b1), true, []⟩
    else
      ⟨row, false, [.needFlags line]⟩

/-- The configuration and collaborators `processFile` runs with. -/
structure Env where
  validateEmail : String → Option String
  typeDefault : String
  descDefault : Option String
  batchSize : Nat
  action : List Row → Nat

/-- Result of normalising one data row (checks of lines 312-355). -/
structure NormRes where
  row : Row
  recipOK : Bool
  flagsOK : Bool
  diags : List Diag
  badInc : Nat
deriving Repr

/-- Lines 312-355: recipient check, flags check, default `type` when
the flags did not resolve (line 350), default `description` when
absent (lines 353-355). -/
def normalizeRow (env : Env) (line : Nat) (row0 : Row) : NormRes :=
  let rr := checkRecip env.validateEmail line row0
  let fr := checkFlags line rr.row
  let row2 := if fr.flagsOK then fr.row else rowSet fr.row "type" (.s env.typeDefault)
  let row3 :=
    if (rowGet row2 "description").isNone then
      match env.descDefault with
      | some d => rowSet row2 "description" (.s d)
      | none => row2
    else row2
  ⟨row3, rr.recipOK, fr.flagsOK, rr.diags ++ fr.diags, rr.badInc⟩

/-- Lines 360-363: the identity key used for deduplication — the
normalised recipient paired with the `type` value if present, `none`
otherwise (old-style flags leave `type` absent). -/
def rowIdentityKey (row : Row) : String × Option String :=
  match rowGet row "type" with
  | some v => (((rowGet row "recipient").getD (.s "")).str, some v.str)
  | none => (((rowGet row "recipient").getD (.s "")).str, none)

/-- The accumulator state across one file pass: the counters of
lines 273-279, the `seen` set, the current batch, and the diagnostics
log. -/
structure PState where
  addrsChecked : Nat
  goodRecips : Nat
  duplicateRecips : Nat
  badRecips : Nat
  doneRecips : Nat
  goodFlags : Nat
  defaultedFlags : Nat
  seen : List (String × Option String)
  batch : List Row
  log : List Diag
deriving DecidableEq, Repr

/-- Initial accumulator state (lines 273-281). -/
def initPState : PState := ⟨0, 0, 0, 0, 0, 0, 0, [], [], []⟩

/-- Lines 359-374: the dedup-and-batch block for a row whose recipient
validated.  A seen identity key is counted as a duplicate and the row
dropped; otherwise the row is appended to the batch, and a full batch
is flushed through the action. -/
def dedupStep (action : List Row → Nat) (batchSize : Nat) (line : Nat)
    (u : String × Option String) (row : Row) (st : PState) : PState :=
  if st.seen.contains u then
    { st with
      duplicateRecips := st.duplicateRecips + 1
      log := st.log ++ [.skipDuplicate line u] }
  else
    let st2 := { st with
      goodRecips := st.goodRecips + 1
      seen := st.seen ++ [u]
      batch := st.batch ++ [row] }
    if batchSize ≤ st2.batch.length then
      { st2 with doneRecips := st2.doneRecips + action st2.batch, batch := [] }
    else
      st2

/-- Lines 313-351: the counter updates of one data row once it has
been normalised — `addrsChecked`, `badRecips` (bumped inside the
recipient check, line 323), and the `goodFlags`/`defaultedFlags`
accounting of lines 347-351 — plus the diagnostics printed so far. -/
def afterChecks (nr : NormRes) (st : PState) : PState :=
  { st with
    addrsChecked := st.addrsChecked + 1
    badRecips := st.badRecips + nr.badInc
    goodFlags := st.goodFlags + (if nr.flagsOK then 1 else 0)
    defaultedFlags := st.defaultedFlags + (if nr.flagsOK then 0 else 1)
    log := st.log ++ nr.diags }

/-- Lines 300-374: process one data row.  A cell-count mismatch with
the header aborts the run (`none`, line 303).  Otherwise the row is
normalised, the counters of lines 346-351 updated, and — when the
recipient validated — the dedup/batch block runs. -/
def processRow (env : Env) (line : Nat) (hdr : List String) (cells : List String)
    (st : PState) : Option PState :=
  if cells.length == hdr.length then
    let nr := normalizeRow env line (buildRow hdr cells)
    if nr.recipOK then
      some (dedupStep env.action env.batchSize line (rowIdentityKey nr.row) nr.row
        (afterChecks nr st))
    else
      some (afterChecks nr st)
  else
    none

/-- Lines 285-298: interpret the first row of the file.  A row
containing `recipient` is a header whose every field name must be
recognised (else fatal); a single-cell row containing `@` is data
under a synthesised `[recipient]` header; anything else is fatal. -/
def headerOf (firstRow : List String) : Option (List String × Bool) :=
  if firstRow.contains "recipient" then
    if firstRow.all (fun h => fieldNames.contains h || flagNames.contains h) then
      some (firstRow, false)
    else
      none
  else if firstRow.length == 1 && (firstRow.headD "").data.contains '@' then
    some (["recipient"], true)
  else
    none

/-- The `for r in f` loop over the data rows, threading the csv
line number. -/
def processRows (env : Env) (hdr : List String) :
    List (List String) → Nat → PState → Option PState
  | [], _, st => some st
  | r :: rs, line, st =>
    match processRow env line hdr r st with
    | none => none
    | some st2 => processRows env hdr rs (line + 1) st2

/-- Lines 376-377: flush the final partial batch, if any, through the
action. -/
def finalFlush (action : List Row → Nat) (st : PState) : PState :=
  if 0 < st.batch.length then
    { st with doneRecips := st.doneRecips + action st.batch }
  else st

/-- Lines 269-385, `processFile`: the file is a list of csv rows (each
a list of cells).  Header handling per `headerOf`; when the first row
is headerless data it is processed as line 1, otherwise data starts at
line 2.  `none` models `exit(1)`.  The returned state carries the
counters reported by the run-end summary of lines 379-384. -/
def processFile (env : Env) (rows : List (List String)) : Option PState :=
  match rows with
  | [] => some (finalFlush env.action initPState)
  | first :: rest =>
    match headerOf first with
    | none => none
    | some (hdr, firstIsData) =>
      let res :=
        if firstIsData then processRows env hdr (first :: rest) 1 initPState
        else processRows env hdr rest 2 initPState
      res.map (finalFlush env.action)

/-! ## Paginated fetcher (lines 228-267) -/

/-- A hypermedia link of a listing response: its `rel` value and the
`cursor` query parameter extracted from its `href`
(`parse_qs(urlparse(href).query)['cursor']` yields a singleton list;
the extraction is modelled by carrying the cursor value). -/
structure Link where
  rel : String
  cursorParam : String
deriving DecidableEq, Repr

/-- One page of the listing response: `results`, `total_count` and
`links`.  Result records are opaque identifiers. -/
structure Page where
  results : List Nat
  total_count : Nat
  links : List Link
deriving DecidableEq, Repr

/-- The value of `p['cursor']`: the literal string `'initial'` set at
line 239, or the list extracted by `parse_qs` at line 260 (a list, so
it never compares equal to the string `'initial'` again). -/
inductive CursorV where
  | initial
  | fetched (cs : List String)
deriving DecidableEq, Repr

/-- The observable state of `RetrieveSuppListToFile`: the cursor
parameter, the page counter `suppPage`, the rows written to the output
file so far, the `total_count` values reported, and how many GETs have
completed. -/
structure RetState where
  cursor : CursorV
  suppPage : Nat
  written : List Nat
  totalReports : List Nat
  pagesFetched : Nat
deriving DecidableEq, Repr

/-- State before the `while morePages` loop (lines 238-240). -/
def initRetState : RetState := ⟨.initial, 1, [], [], 0⟩

/-- Outcome of the fetch loop under fuel: normal termination, a fatal
`exit(1)`, or fuel exhausted with the loop still running. -/
inductive RetOutcome where
  | ok (st : RetState)
  | aborted (st : RetState)
  | outOfFuel (st : RetState)
deriving DecidableEq, Repr

/-- Lines 257-267: scan the response links in order.  A `next` link
overwrites the cursor with the (singleton-list) extracted cursor,
increments `suppPage` and sets `morePages`; `first`/`last`/`previous`
links are ignored; any other relation is a fatal `exit(1)` (`none`),
leaving the rest of the links unscanned. -/
def scanLinks : List Link → CursorV → Nat → Bool → Option (CursorV × Nat × Bool)
  | [], c, sp, mp => some (c, sp, mp)
  | l :: ls, c, sp, mp =>
    if l.rel == "next" then
      scanLinks ls (.fetched [l.cursorParam]) (sp + 1) true
    else if l.rel == "last" || l.rel == "first" || l.rel == "previous" then
      scanLinks ls c sp mp
    else
      none

/-- Lines 228-267, the `while morePages` loop of
`RetrieveSuppListToFile`.  `fetch n` is the page returned by the
`n`-th completed `getSuppressionList` call (already past its own
429-retry loop); `none` there is the `None` error return, which the
loop turns into `exit(1)` (line 245).  Each iteration writes the
page's results to the output file as they arrive (lines 247-248),
reports `total_count` only while the cursor still holds the initial
marker (lines 251-253), then scans the links. -/
def RetrieveSuppListToFile (fetch : Nat → Option Page) : Nat → RetState → RetOutcome
  | 0, st => .outOfFuel st
  | fuel + 1, st =>
    match fetch st.pagesFetched with
    | none => .aborted st
    | some pg =>
      let st1 : RetState :=
        { cursor := st.cursor
          suppPage := st.suppPage
          written := st.written ++ pg.results
          totalReports :=
            if st.cursor = .initial then st.totalReports ++ [pg.total_count]
            else st.totalReports
          pagesFetched := st.pagesFetched + 1 }
      match scanLinks pg.links st1.cursor st1.suppPage false with
      | none => .aborted st1
      | some (c, sp, mp) =>
        let st2 := { st1 with cursor := c, suppPage := sp }
        if mp then RetrieveSuppListToFile fetch fuel st2 else .ok st2

/-- Is a link relation one the scanner accepts without aborting? -/
def allowedRel (r : String) : Bool :=
  r == "next" || r == "first" || r == "last" || r == "previous"

/-- Does a link list contain a `next` link? -/
def hasNextLink (ls : List Link) : Bool := ls.any (fun l => l.rel == "next")

/-! ## Batch size used per command (lines 466-469) -/

/-- Lines 466-469: just before `processFile` is called, the `delete`
command shrinks the configured batch size to `min batchSize
(10 * Nthreads)`; `check` and `update` use it unchanged. -/
def effectiveBatchSize (cmd : String) (batchSize Nthreads : Nat) : Nat :=
  if cmd == "delete" then min batchSize (10 * Nthreads) else batchSize

/-! ## The mini-batch slices dispatched by the delete action -/

/-- The sequence of mini-batches `deleteGo` dispatches through
`threadAction`, in dispatch order (same recursion structure as
`deleteGo`, lines 203-210). -/
def miniBatches {α : Type} (Nthreads : Nat) : List α → List α → List (List α)
  | [], pending => if 0 < pending.length then [pending] else []
  | r :: rs, pending =>
    let pending2 := pending ++ [r]
    if Nthreads ≤ pending2.length then pending2 :: miniBatches Nthreads rs []
    else miniBatches Nthreads rs pending2

/-! ## Concrete demo inputs used by scenario conjuncts and witnesses -/

/-- A concrete stand-in for the `validate_email` library on the two
addresses of the duplicate scenario: both are syntactically valid, and
the library lower-cases the domain part during normalisation. -/
def vEmailDemo : String → Option String := fun s =>
  if s == "a@example.com" then some "a@example.com"
  else if s == "A@EXAMPLE.com" then some "A@example.com"
  else none

/-- A concrete run environment: default type `non_transactional`, no
description default, batch size 10000, and the `check` action
(`noAction`, returning 0). -/
def envDemo : Env := ⟨vEmailDemo, "non_transactional", none, 10000, fun _ => 0⟩

/-- The input file of the duplicate scenario:
`recipient`, `a@example.com`, `A@EXAMPLE.com`. -/
def rowsDup : List (List String) :=
  [["recipient"], ["a@example.com"], ["A@EXAMPLE.com"]]

/-- An input file with a header row and one data row whose recipient
cell is empty. -/
def rowsEmptyRecip : List (List String) := [["recipient"], [""]]

/-- Two synthetic listing pages: the first carries a `next` link (and
a `last` link to be ignored), the second only a `first` link. -/
def psDemo : List Page :=
  [⟨[1, 2], 5, [⟨"next", "c2"⟩, ⟨"last", "x"⟩]⟩, ⟨[3], 5, [⟨"first", "y"⟩]⟩]

/-- The fetch oracle serving `psDemo` page by page. -/
def fetchDemo : Nat → Option Page := fun n => psDemo.get? n

/-! ## Helper lemmas: the 429 retry loops -/

lemma getSuppStep_429 (r : Resp) (h : r.status_code = 429) :
    getSuppStep r = .again (if r.errMsg = "Too many requests" then 120 else 0) := by
  by_cases he : r.errMsg = "Too many requests" <;>
    simp [getSuppStep, h, he]

lemma deleterStep_429 (r : Resp) (h : r.status_code = 429) :
    deleterStep r = .again (if r.errMsg = "Too many requests" then 10 else 0) := by
  by_cases he : r.errMsg = "Too many requests" <;>
    simp [deleterStep, h, he]

lemma getSuppressionList_429_loops (stream : Nat → Resp)
    (h : ∀ n, (stream n).status_code = 429) :
    ∀ fuel i, getSuppressionList stream fuel i = none := by
  intro fuel
  induction fuel with
  | zero => intro i; rfl
  | succ fuel ih =>
    intro i
    rw [getSuppressionList, getSuppStep_429 (stream i) (h i)]
    exact ih (i + 1)

lemma deleterRun_429_loops (stream : Nat → Resp)
    (h : ∀ n, (stream n).status_code = 429) :
    ∀ fuel i, deleterRun stream fuel i = none := by
  intro fuel
  induction fuel with
  | zero => intro i; rfl
  | succ fuel ih =>
    intro i
    rw [deleterRun, deleterStep_429 (stream i) (h i)]
    exact ih (i + 1)

/-! ## Claim theorems -/

/-- Claim C10: when the command is `delete` the batch size handed to
`processFile` is reduced to `min batchSize (10 * Nthreads)` before
processing begins, while `check` and `update` use the configured
batch size unchanged. -/
theorem effectiveBatchSize_delete_reduced (batchSize Nthreads : Nat) :
    effectiveBatchSize "delete" batchSize Nthreads = min batchSize (10 * Nthreads) ∧
    effectiveBatchSize "check" batchSize Nthreads = batchSize ∧
    effectiveBatchSize "update" batchSize Nthreads = batchSize :=
  ⟨rfl, rfl, rfl⟩

/-- Claim C1 (failing-input evaluation): a 2-record batch whose
whole-batch PUT returns a non-success status (here 500) makes
`updateSuppressionList` raise an uncaught `TypeError` — the recursive
calls of lines 116-117 omit the required `subaccount_id` argument —
so no half is retried and no success count is returned. -/
theorem updateSuppressionList_split_typeError :
    updateSuppressionList (fun _ => 500) ([0, 1] : List Nat) = PyResult.typeError := rfl

/-- Claim C6: a batch of size 1 whose PUT returns any non-200 status
makes `updateSuppressionList` report the failed record (the
`could not update` message carrying the batch body) and return 0 for
it, without raising: fatal for that record only, not for the run. -/
theorem updateSuppressionList_singleton_failure {α : Type}
    (putStatus : List α → Nat) (r : α) (h : putStatus [r] ≠ 200) :
    updateSuppressionList putStatus [r] = .ok (0, [[r]]) := by
  simp [updateSuppressionList, h]

/-- Witness for C6 at a concrete input: a singleton batch whose PUT
returns 400 yields success count 0 and one could-not-update report. -/
theorem updateSuppressionList_singleton_failure_witness :
    updateSuppressionList (fun _ => (400 : Nat)) ([0] : List Nat) = .ok (0, [[0]]) :=
  updateSuppressionList_singleton_failure (fun _ => (400 : Nat)) 0 (by decide)

/-- Claim C9: in `getSuppressionList` and `deleter.run`, an HTTP 429
response is never surfaced to the caller, whatever its payload: when
`errors[0].message` equals `Too many requests` the loop sleeps
(120 seconds for list, 10 for delete) before retrying, any other 429
payload is retried immediately with no sleep, and an all-429 stream
keeps both loops running for any amount of fuel. -/
theorem status429_never_surfaced :
    (∀ r : Resp, r.status_code = 429 →
      getSuppStep r = .again (if r.errMsg = "Too many requests" then 120 else 0) ∧
      deleterStep r = .again (if r.errMsg = "Too many requests" then 10 else 0)) ∧
    (∀ (stream : Nat → Resp), (∀ n, (stream n).status_code = 429) →
      ∀ fuel i, getSuppressionList stream fuel i = none ∧ deleterRun stream fuel i = none) :=
  ⟨fun r h => ⟨getSuppStep_429 r h, deleterStep_429 r h⟩,
   fun stream h fuel i =>
     ⟨getSuppressionList_429_loops stream h fuel i, deleterRun_429_loops stream h fuel i⟩⟩

/-- Witness for C9 at concrete inputs: a rate-limit 429 makes the list
step sleep 120 and the delete step sleep 10; a stream of 429s with an
unrecognised payload keeps the list loop running beyond 7 responses. -/
theorem status429_never_surfaced_witness :
    getSuppStep ⟨429, "Too many requests", 0⟩ = .again 120 ∧
    deleterStep ⟨429, "Too many requests", 0⟩ = .again 10 ∧
    getSuppressionList (fun _ => ⟨429, "slow down", 0⟩) 7 0 = none := by
  have h := status429_never_surfaced
  refine ⟨?_, ?_, ?_⟩
  · simpa using (h.1 ⟨429, "Too many requests", 0⟩ rfl).1
  · simpa using (h.1 ⟨429, "Too many requests", 0⟩ rfl).2
  · exact (h.2 (fun _ => ⟨429, "slow down", 0⟩) (fun _ => rfl) 7 0).1

/-- Counterexample to C2 as stated: the upsert PUT is not retried on a
429.  A singleton batch whose PUT returns 429 takes the generic
non-success path (reporting the record and returning 0 successes),
exactly as it would for a 500 — there is no 429 branch in
`updateSuppressionList`. -/
theorem upsert_429_treated_as_generic_failure :
    updateSuppressionList (fun _ => (429 : Nat)) ([0] : List Nat) = .ok (0, [[0]]) ∧
    updateSuppressionList (fun _ => (429 : Nat)) ([0] : List Nat)
      = updateSuppressionList (fun _ => (500 : Nat)) ([0] : List Nat) :=
  ⟨rfl, rfl⟩

/-- Claim C2 (amended): the list and delete calls that receive a 429
whose payload message indicates rate limiting sleep a fixed backoff
(120 and 10 seconds) and retry indefinitely, a 429 with another
payload being retried with no sleep; the upsert PUT, however, has no
429 handling at all — `updateSuppressionList` observes only whether
the status is 200, so a 429 is treated exactly like any other
non-success status. -/
theorem retry429_list_delete_only :
    (∀ {α : Type} (put1 put2 : List α → Nat) (batch : List α),
      (put1 batch == 200) = (put2 batch == 200) →
      updateSuppressionList put1 batch = updateSuppressionList put2 batch) ∧
    (∀ r : Resp, r.status_code = 429 →
      getSuppStep r = .again (if r.errMsg = "Too many requests" then 120 else 0) ∧
      deleterStep r = .again (if r.errMsg = "Too many requests" then 10 else 0)) ∧
    (∀ (stream : Nat → Resp), (∀ n, (stream n).status_code = 429) →
      ∀ fuel i, getSuppressionList stream fuel i = none ∧ deleterRun stream fuel i = none) := by
  refine ⟨?_, fun r h => ⟨getSuppStep_429 r h, deleterStep_429 r h⟩,
    fun stream h fuel i =>
      ⟨getSuppressionList_429_loops stream h fuel i, deleterRun_429_loops stream h fuel i⟩⟩
  intro α put1 put2 batch h
  rw [updateSuppressionList, updateSuppressionList, h]

/-- Witness for C2's amended statement at concrete inputs: a 429 PUT
result is indistinguishable from a 31415 one for the upsert, while
the list loop keeps retrying an all-429 stream. -/
theorem retry429_list_delete_only_witness :
    updateSuppressionList (fun _ => (429 : Nat)) ([7] : List Nat)
      = updateSuppressionList (fun _ => (31415 : Nat)) ([7] : List Nat) ∧
    getSuppStep ⟨429, "Too many requests", 3⟩ = .again 120 ∧
    deleterRun (fun _ => ⟨429, "busy", 1⟩) 5 0 = none := by
  have h := retry429_list_delete_only
  refine ⟨h.1 _ _ _ (by decide), ?_, ?_⟩
  · simpa using (h.2.1 ⟨429, "Too many requests", 3⟩ rfl).1
  · exact (h.2.2 (fun _ => ⟨429, "busy", 1⟩) (fun _ => rfl) 5 0).2

/-! ## Helper lemmas: the delete mini-batch loop -/

lemma miniBatches_length_le {α : Type} (Nthreads : Nat) :
    ∀ (rest pending : List α), pending.length < Nthreads →
      ∀ b ∈ miniBatches Nthreads rest pending, b.length ≤ Nthreads := by
  intro rest
  induction rest with
  | nil =>
    intro pending hp b hb
    by_cases h0 : 0 < pending.length <;> simp [miniBatches, h0] at hb
    · subst hb; omega
  | cons r rs ih =>
    intro pending hp b hb
    simp only [miniBatches] at hb
    by_cases hfull : Nthreads ≤ (pending ++ [r]).length
    · simp only [hfull, if_pos] at hb
      rcases List.mem_cons.mp hb with h | h
      · subst h; simp; omega
      · exact ih [] (by simp only [List.length_nil]; omega) b h
    · simp only [hfull, if_neg, not_false_iff] at hb
      have : (pending ++ [r]).length < Nthreads := by omega
      exact ih (pending ++ [r]) this b hb

lemma deleteGo_eq_miniBatches {α : Type} (respond : α → Nat) (Nthreads : Nat)
    (hN : 1 ≤ Nthreads) :
    ∀ (rest pending : List α) (done : Nat), pending.length < Nthreads →
      deleteGo respond Nthreads rest pending done
        = some (done + ((miniBatches Nthreads rest pending).map
            (fun b => b.countP (fun r => respond r == 204))).sum) := by
  intro rest
  induction rest with
  | nil =>
    intro pending done hp
    by_cases h0 : 0 < pending.length <;>
      simp [deleteGo, miniBatches, threadAction, h0, Nat.le_of_lt hp]
  | cons r rs ih =>
    intro pending done hp
    by_cases hfull : Nthreads ≤ (pending ++ [r]).length
    · have hlen : (pending ++ [r]).length ≤ Nthreads := by
        simp only [List.length_append, List.length_cons, List.length_nil] at hfull ⊢
        omega
      simp only [deleteGo, miniBatches, hfull, if_pos, threadAction, hlen]
      rw [ih [] (done + List.countP (fun x => respond x == 204) (pending ++ [r]))
        (by simp only [List.length_nil]; omega)]
      simp only [List.map_cons, List.sum_cons, Option.some.injEq]
      omega
    · have hlt : (pending ++ [r]).length < Nthreads := by omega
      simp only [deleteGo, miniBatches, hfull, if_neg, not_false_iff]
      exact ih (pending ++ [r]) done hlt

/-- Counterexample to C5 as stated: with a configured pool size of 0
(`DeleteThreads = 0` in the .ini file), the very first mini-batch has
1 record, the assertion `len(recipBatch) <= persist.size()` fires, and
the run crashes (`none`), for a batch of one recipient whose delete
would have returned 204. -/
theorem deleteSuppressionList_poolsize_zero_asserts :
    deleteSuppressionList (fun _ => (204 : Nat)) 0 ([0] : List Nat) = none := rfl

/-- Claim C5 (amended): provided the configured pool size is at least
1, the assertion at the head of `threadAction` never fires when it is
invoked via `deleteSuppressionList`: the batch is sliced into
mini-batches of at most `Nthreads` records each, they are dispatched
strictly sequentially, and the returned value is the sum of the
per-mini-batch success counts. -/
theorem deleteSuppressionList_subbatches {α : Type} (respond : α → Nat)
    (Nthreads : Nat) (recipBatch : List α) (hN : 1 ≤ Nthreads) :
    (∀ b ∈ miniBatches Nthreads recipBatch [], b.length ≤ Nthreads) ∧
    deleteSuppressionList respond Nthreads recipBatch
      = some (((miniBatches Nthreads recipBatch []).map
          (fun b => b.countP (fun r => respond r == 204))).sum) := by
  constructor
  · exact miniBatches_length_le Nthreads recipBatch [] (by simpa using hN)
  · have h := deleteGo_eq_miniBatches respond Nthreads hN recipBatch [] 0 (by simpa using hN)
    simpa [deleteSuppressionList] using h

/-- Witness for C5's amended statement: seven recipients, pool size 3
(mini-batches of 3, 3 and 1), one delete failing, total 6. -/
theorem deleteSuppressionList_subbatches_witness :
    (∀ b ∈ miniBatches 3 ([0, 1, 2, 3, 4, 5, 6] : List Nat) [], b.length ≤ 3) ∧
    deleteSuppressionList (fun r => if r == 2 then 500 else 204) 3
      ([0, 1, 2, 3, 4, 5, 6] : List Nat) = some 6 := by
  have h := deleteSuppressionList_subbatches (fun r : Nat => if r == 2 then 500 else 204)
    3 ([0, 1, 2, 3, 4, 5, 6] : List Nat) (by decide)
  exact ⟨h.1, by rw [h.2]; rfl⟩

/-! ## Helper lemmas: row dicts and the row normaliser -/

lemma rowGet_cons (p : String × RVal) (ds : Row) (k2 : String) :
    rowGet (p :: ds) k2 = if p.1 = k2 then some p.2 else rowGet ds k2 := by
  by_cases h : p.1 = k2
  · rw [rowGet, List.find?_cons_of_pos _ (by simp [h]), if_pos h]; rfl
  · rw [rowGet, List.find?_cons_of_neg _ (by simp [h]), if_neg h]; rfl

lemma rowGet_rowSet (d : Row) (k k2 : String) (v : RVal) :
    rowGet (rowSet d k v) k2 = if k2 = k then some v else rowGet d k2 := by
  induction d with
  | nil =>
    rw [rowSet, rowGet_cons]
    by_cases h : k2 = k
    · simp [h]
    · simp [h, Ne.symm h]
  | cons p ds ih =>
    rw [rowSet]
    by_cases hpk : p.1 = k
    · rw [if_pos (by simp [hpk]), rowGet_cons, rowGet_cons]
      by_cases h : k2 = k
      · simp [h]
      · have hp2 : ¬ p.1 = k2 := by rw [hpk]; exact Ne.symm h
        simp [h, Ne.symm h, hp2]
    · rw [if_neg (by simp [hpk]), rowGet_cons, rowGet_cons, ih]
      by_cases hp2 : p.1 = k2
      · have hk : ¬ k2 = k := fun hh => hpk (hp2.trans hh)
        simp [hp2, hk]
      · simp [hp2]

lemma rowGet_rowSet_same (d : Row) (k : String) (v : RVal) :
    rowGet (rowSet d k v) k = some v := by
  simp [rowGet_rowSet]

lemma rowGet_rowSet_ne (d : Row) (k k2 : String) (v : RVal) (h : k2 ≠ k) :
    rowGet (rowSet d k v) k2 = rowGet d k2 := by
  simp [rowGet_rowSet, h]

lemma checkRecip_none (validateEmail : String → Option String) (line : Nat) (row : Row)
    (h : rowGet row "recipient" = none) :
    checkRecip validateEmail line row = ⟨row, false, [], 0⟩ := by
  simp only [checkRecip, h]

lemma checkRecip_recipOK_badInc (validateEmail : String → Option String)
    (line : Nat) (row : Row)
    (h : (checkRecip validateEmail line row).recipOK = true) :
    (checkRecip validateEmail line row).badInc = 0 := by
  unfold checkRecip at h ⊢
  cases h1 : rowGet row "recipient" with
  | none => simp [h1]
  | some v =>
    cases h2 : validateEmail v.str with
    | none => simp [h1, h2] at h
    | some e => simp [h1, h2]

lemma checkFlags_diags_not_recipient (line : Nat) (row : Row) :
    ∀ d ∈ (checkFlags line row).diags, d.aboutRecipient = false := by
  intro d hd
  unfold checkFlags at hd
  cases h1 : rowGet row "type" with
  | some v =>
    simp only [h1] at hd
    split at hd <;> simp at hd
    subst hd; rfl
  | none =>
    simp only [h1] at hd
    split at hd
    · split at hd <;> try split at hd
      all_goals simp at hd
      all_goals (subst hd; rfl)
    · simp at hd
      subst hd; rfl

lemma normalizeRow_recipOK (env : Env) (line : Nat) (row0 : Row) :
    (normalizeRow env line row0).recipOK
      = (checkRecip env.validateEmail line row0).recipOK := rfl

lemma normalizeRow_badInc (env : Env) (line : Nat) (row0 : Row) :
    (normalizeRow env line row0).badInc
      = (checkRecip env.validateEmail line row0).badInc := rfl

lemma normalizeRow_flagsOK (env : Env) (line : Nat) (row0 : Row) :
    (normalizeRow env line row0).flagsOK
      = (checkFlags line (checkRecip env.validateEmail line row0).row).flagsOK := rfl

lemma normalizeRow_diags (env : Env) (line : Nat) (row0 : Row) :
    (normalizeRow env line row0).diags
      = (checkRecip env.validateEmail line row0).diags
        ++ (checkFlags line (checkRecip env.validateEmail line row0).row).diags := rfl

lemma normalizeRow_type_default (env : Env) (line : Nat) (row0 : Row)
    (h : (normalizeRow env line row0).flagsOK = false) :
    rowGet (normalizeRow env line row0).row "type" = some (.s env.typeDefault) := by
  rw [normalizeRow_flagsOK] at h
  show rowGet
    (let fr := checkFlags line (checkRecip env.validateEmail line row0).row
     let row2 := if fr.flagsOK then fr.row else rowSet fr.row "type" (.s env.typeDefault)
     if (rowGet row2 "description").isNone then
       match env.descDefault with
       | some dd => rowSet row2 "description" (.s dd)
       | none => row2
     else row2) "type" = some (.s env.typeDefault)
  simp only [h, Bool.false_eq_true, if_neg, not_false_iff]
  split
  · cases env.descDefault with
    | some dd =>
      rw [rowGet_rowSet_ne _ _ _ _ (by decide), rowGet_rowSet_same]
    | none => rw [rowGet_rowSet_same]
  · rw [rowGet_rowSet_same]

lemma afterChecks_addrsChecked (nr : NormRes) (st : PState) :
    (afterChecks nr st).addrsChecked = st.addrsChecked + 1 := rfl

lemma afterChecks_badRecips (nr : NormRes) (st : PState) :
    (afterChecks nr st).badRecips = st.badRecips + nr.badInc := rfl

lemma afterChecks_goodFlags (nr : NormRes) (st : PState) :
    (afterChecks nr st).goodFlags = st.goodFlags + (if nr.flagsOK then 1 else 0) := rfl

lemma afterChecks_defaultedFlags (nr : NormRes) (st : PState) :
    (afterChecks nr st).defaultedFlags
      = st.defaultedFlags + (if nr.flagsOK then 0 else 1) := rfl

lemma afterChecks_goodRecips (nr : NormRes) (st : PState) :
    (afterChecks nr st).goodRecips = st.goodRecips := rfl

lemma afterChecks_duplicateRecips (nr : NormRes) (st : PState) :
    (afterChecks nr st).duplicateRecips = st.duplicateRecips := rfl

lemma afterChecks_seen (nr : NormRes) (st : PState) :
    (afterChecks nr st).seen = st.seen := rfl

lemma afterChecks_batch (nr : NormRes) (st : PState) :
    (afterChecks nr st).batch = st.batch := rfl

lemma afterChecks_log (nr : NormRes) (st : PState) :
    (afterChecks nr st).log = st.log ++ nr.diags := rfl

lemma processRow_eq_of_len (env : Env) (line : Nat) (hdr cells : List String)
    (st : PState) (hlen : cells.length = hdr.length) :
    processRow env line hdr cells st
      = (if (normalizeRow env line (buildRow hdr cells)).recipOK then
          some (dedupStep env.action env.batchSize line
            (rowIdentityKey (normalizeRow env line (buildRow hdr cells)).row)
            (normalizeRow env line (buildRow hdr cells)).row
            (afterChecks (normalizeRow env line (buildRow hdr cells)) st))
        else
          some (afterChecks (normalizeRow env line (buildRow hdr cells)) st)) := by
  simp only [processRow, hlen, beq_self_eq_true, if_true]

/-- Claim C3: on the input file `recipient` / `a@example.com` /
`A@EXAMPLE.com` (no type column) the first data row is accepted and
the second rejected as a duplicate after lower-casing, the summary
reporting goodRecips = 1 and duplicateRecips = 1 with only the first
row kept in the batch; and in general, a row whose identity key is
already in the seen set is counted as a duplicate and excluded from
the batch, while an unseen key is counted good and recorded, so the
first row seen with a key wins. -/
theorem duplicate_scenario_first_seen_wins :
    ((processFile envDemo rowsDup).map PState.goodRecips = some 1 ∧
     (processFile envDemo rowsDup).map PState.duplicateRecips = some 1 ∧
     (processFile envDemo rowsDup).map PState.badRecips = some 0 ∧
     (processFile envDemo rowsDup).map (fun s => s.batch.map (fun r => rowGet r "recipient"))
       = some [some (.s "a@example.com")]) ∧
    (∀ (action : List Row → Nat) (batchSize line : Nat) (u : String × Option String)
       (row : Row) (st : PState),
      (st.seen.contains u = true →
        dedupStep action batchSize line u row st =
          { st with duplicateRecips := st.duplicateRecips + 1,
                    log := st.log ++ [Diag.skipDuplicate line u] }) ∧
      (st.seen.contains u = false →
        (dedupStep action batchSize line u row st).goodRecips = st.goodRecips + 1 ∧
        (dedupStep action batchSize line u row st).seen = st.seen ++ [u] ∧
        (dedupStep action batchSize line u row st).duplicateRecips = st.duplicateRecips)) := by
  refine ⟨⟨by decide, by decide, by decide, by decide⟩, ?_⟩
  intro action batchSize line u row st
  constructor
  · intro h
    rw [dedupStep, if_pos h]
  · intro h
    rw [dedupStep, if_neg (by rw [h]; exact Bool.false_ne_true)]
    by_cases hb : batchSize ≤ st.batch.length + 1 <;>
      refine ⟨?_, ?_, ?_⟩ <;> simp [hb]

/-- Witness for C3's general part at a concrete input: a row whose key
is already seen is recorded as a duplicate and nothing else changes. -/
theorem duplicate_scenario_first_seen_wins_witness :
    dedupStep (fun _ => 0) 10 3 ("a@example.com", none) []
      { initPState with seen := [("a@example.com", none)] }
      = { initPState with
          seen := [("a@example.com", none)],
          duplicateRecips := 1,
          log := [Diag.skipDuplicate 3 ("a@example.com", none)] } := by
  have h := (duplicate_scenario_first_seen_wins.2 (fun _ => 0) 10 3
    ("a@example.com", none) [] { initPState with seen := [("a@example.com", none)] }).1
    (by decide)
  exact h.trans (by decide)

/-- Claim C7: a data row for which neither a valid `type` field nor a
valid pair of old-style boolean flags resolves gets the configured
default type, bumps `defaultedFlags` (not `goodFlags`, and not the
failure counter `badRecips`), and — its recipient being valid and
unseen — still enters the batch, carrying the default type value. -/
theorem defaulted_flags_not_a_failure (env : Env) (line : Nat)
    (hdr cells : List String) (st : PState)
    (hlen : cells.length = hdr.length)
    (hrec : (normalizeRow env line (buildRow hdr cells)).recipOK = true)
    (hflag : (normalizeRow env line (buildRow hdr cells)).flagsOK = false)
    (hseen : st.seen.contains
      (rowIdentityKey (normalizeRow env line (buildRow hdr cells)).row) = false)
    (hroom : st.batch.length + 1 < env.batchSize) :
    ∃ st2, processRow env line hdr cells st = some st2 ∧
      st2.defaultedFlags = st.defaultedFlags + 1 ∧
      st2.goodFlags = st.goodFlags ∧
      st2.badRecips = st.badRecips ∧
      st2.goodRecips = st.goodRecips + 1 ∧
      st2.batch = st.batch ++ [(normalizeRow env line (buildRow hdr cells)).row] ∧
      rowGet ((normalizeRow env line (buildRow hdr cells)).row) "type"
        = some (.s env.typeDefault) := by
  have hbad : (normalizeRow env line (buildRow hdr cells)).badInc = 0 := by
    rw [normalizeRow_badInc]
    exact checkRecip_recipOK_badInc _ _ _ (by rw [← normalizeRow_recipOK]; exact hrec)
  rw [processRow_eq_of_len env line hdr cells st hlen, if_pos hrec]
  have hseen2 : ((afterChecks (normalizeRow env line (buildRow hdr cells)) st).seen.contains
      (rowIdentityKey (normalizeRow env line (buildRow hdr cells)).row)) = false := hseen
  rw [dedupStep, if_neg (by rw [hseen2]; exact Bool.false_ne_true),
    if_neg (by
      simp only [afterChecks_batch, List.length_append, List.length_cons, List.length_nil]
      omega)]
  refine ⟨_, rfl, ?_, ?_, ?_, ?_, ?_, normalizeRow_type_default env line _ hflag⟩
  · show (afterChecks (normalizeRow env line (buildRow hdr cells)) st).defaultedFlags
      = st.defaultedFlags + 1
    rw [afterChecks_defaultedFlags, hflag]
    simp
  · show (afterChecks (normalizeRow env line (buildRow hdr cells)) st).goodFlags
      = st.goodFlags
    rw [afterChecks_goodFlags, hflag]
    simp
  · show (afterChecks (normalizeRow env line (buildRow hdr cells)) st).badRecips
      = st.badRecips
    rw [afterChecks_badRecips, hbad]
    simp
  · show (afterChecks (normalizeRow env line (buildRow hdr cells)) st).goodRecips + 1
      = st.goodRecips + 1
    rw [afterChecks_goodRecips]
  · show (afterChecks (normalizeRow env line (buildRow hdr cells)) st).batch
        ++ [(normalizeRow env line (buildRow hdr cells)).row]
      = st.batch ++ [(normalizeRow env line (buildRow hdr cells)).row]
    rw [afterChecks_batch]

/-- Witness for C7 at a concrete input: header `recipient, type`, row
`b@example.com, bogus` — the invalid type falls back to the default,
is not counted as a failure, and the row is batched. -/
theorem defaulted_flags_not_a_failure_witness :
    ∃ st2, processRow
        ⟨fun s => if s == "b@example.com" then some "b@example.com" else none,
         "non_transactional", none, 10000, fun _ => 0⟩
        2 ["recipient", "type"] ["b@example.com", "bogus"] initPState = some st2 ∧
      st2.defaultedFlags = 1 ∧ st2.goodFlags = 0 ∧ st2.badRecips = 0 ∧
      st2.goodRecips = 1 := by
  obtain ⟨st2, h1, h2, h3, h4, h5, h6, h7⟩ := defaulted_flags_not_a_failure
    ⟨fun s => if s == "b@example.com" then some "b@example.com" else none,
     "non_transactional", none, 10000, fun _ => 0⟩
    2 ["recipient", "type"] ["b@example.com", "bogus"] initPState
    rfl (by decide) (by decide) (by decide) (by decide)
  exact ⟨st2, h1, by simpa [initPState] using h2, by simpa [initPState] using h3,
    by simpa [initPState] using h4, by simpa [initPState] using h5⟩

/-- Claim C8: a data row with no (non-empty) recipient cell bumps
`addrsChecked` but none of `goodRecips`, `badRecips` or
`duplicateRecips`, and emits no per-line diagnostic about the
recipient; consequently, on a file containing such a row, the summary
identity `addrsChecked = goodRecips + badRecips + duplicateRecips`
fails. -/
theorem missing_recipient_counted_nowhere :
    (∀ (env : Env) (line : Nat) (hdr cells : List String) (st : PState),
      cells.length = hdr.length →
      rowGet (buildRow hdr cells) "recipient" = none →
      ∃ st2, processRow env line hdr cells st = some st2 ∧
        st2.addrsChecked = st.addrsChecked + 1 ∧
        st2.goodRecips = st.goodRecips ∧
        st2.badRecips = st.badRecips ∧
        st2.duplicateRecips = st.duplicateRecips ∧
        ∀ d ∈ st2.log, d ∈ st.log ∨ d.aboutRecipient = false) ∧
    (∃ s, processFile envDemo rowsEmptyRecip = some s ∧
      s.addrsChecked = 1 ∧ s.goodRecips = 0 ∧ s.badRecips = 0 ∧ s.duplicateRecips = 0 ∧
      s.addrsChecked ≠ s.goodRecips + s.badRecips + s.duplicateRecips) := by
  constructor
  · intro env line hdr cells st hlen h2
    have hcr := checkRecip_none env.validateEmail line (buildRow hdr cells) h2
    have hrec : (normalizeRow env line (buildRow hdr cells)).recipOK = false := by
      rw [normalizeRow_recipOK, hcr]
    have hbad : (normalizeRow env line (buildRow hdr cells)).badInc = 0 := by
      rw [normalizeRow_badInc, hcr]
    have hdg : (normalizeRow env line (buildRow hdr cells)).diags
        = (checkFlags line (buildRow hdr cells)).diags := by
      rw [normalizeRow_diags, hcr]
      rfl
    rw [processRow_eq_of_len env line hdr cells st hlen,
      if_neg (by rw [hrec]; exact Bool.false_ne_true)]
    refine ⟨_, rfl, afterChecks_addrsChecked _ _, afterChecks_goodRecips _ _, ?_,
      afterChecks_duplicateRecips _ _, ?_⟩
    · rw [afterChecks_badRecips, hbad]
      rfl
    · intro d hd
      rw [afterChecks_log, hdg] at hd
      rcases List.mem_append.mp hd with h | h
      · exact Or.inl h
      · exact Or.inr (checkFlags_diags_not_recipient line (buildRow hdr cells) d h)
  · exact ⟨⟨1, 0, 0, 0, 0, 0, 1, [], [], [Diag.needFlags 2]⟩, by decide,
      rfl, rfl, rfl, rfl, by decide⟩

/-- Witness for C8's general part at a concrete input: the data row
with an empty recipient cell under header `recipient`. -/
theorem missing_recipient_counted_nowhere_witness :
    ∃ st2, processRow envDemo 2 ["recipient"] [""] initPState = some st2 ∧
      st2.addrsChecked = 1 ∧ st2.goodRecips = 0 ∧ st2.badRecips = 0 ∧
      st2.duplicateRecips = 0 ∧
      ∀ d ∈ st2.log, d ∈ initPState.log ∨ d.aboutRecipient = false := by
  obtain ⟨st2, h1, h2, h3, h4, h5, h6⟩ := missing_recipient_counted_nowhere.1
    envDemo 2 ["recipient"] [""] initPState rfl (by decide)
  exact ⟨st2, h1, by simpa [initPState] using h2, by simpa [initPState] using h3,
    by simpa [initPState] using h4, by simpa [initPState] using h5, h6⟩

/-! ## Helper lemmas: the paginated fetcher -/

lemma scanLinks_no_next (ls : List Link) :
    (∀ l ∈ ls, allowedRel l.rel = true) →
    (∀ l ∈ ls, ¬ l.rel = "next") →
    ∀ (c : CursorV) (sp : Nat) (mp : Bool), scanLinks ls c sp mp = some (c, sp, mp) := by
  induction ls with
  | nil => intro _ _ c sp mp; rfl
  | cons l ls ih =>
    intro hall hno c sp mp
    have hl := hall l (List.mem_cons_self l ls)
    have hnl := hno l (List.mem_cons_self l ls)
    simp only [allowedRel, Bool.or_eq_true, beq_iff_eq] at hl
    rcases hl with ((h | h) | h) | h
    · exact absurd h hnl
    all_goals
      rw [scanLinks, if_neg (by simp [h]), if_pos (by simp [h])]
    all_goals
      exact ih (fun x hx => hall x (List.mem_cons_of_mem _ hx))
        (fun x hx => hno x (List.mem_cons_of_mem _ hx)) c sp mp

lemma scanLinks_stays_fetched (ls : List Link) :
    (∀ l ∈ ls, allowedRel l.rel = true) →
    ∀ (cs : List String) (sp : Nat),
      ∃ cs2 sp2, scanLinks ls (.fetched cs) sp true = some (.fetched cs2, sp2, true) := by
  induction ls with
  | nil => intro _ cs sp; exact ⟨cs, sp, rfl⟩
  | cons l ls ih =>
    intro hall cs sp
    have hl := hall l (List.mem_cons_self l ls)
    have hall2 := fun x hx => hall x (List.mem_cons_of_mem l hx)
    simp only [allowedRel, Bool.or_eq_true, beq_iff_eq] at hl
    rcases hl with ((h | h) | h) | h
    · rw [scanLinks, if_pos (by simp [h])]
      exact ih hall2 [l.cursorParam] (sp + 1)
    all_goals
      rw [scanLinks, if_neg (by simp [h]), if_pos (by simp [h])]
    all_goals
      exact ih hall2 cs sp

lemma scanLinks_with_next (ls : List Link) :
    (∀ l ∈ ls, allowedRel l.rel = true) →
    (∃ l ∈ ls, l.rel = "next") →
    ∀ (c : CursorV) (sp : Nat) (mp : Bool),
      ∃ cs2 sp2, scanLinks ls c sp mp = some (.fetched cs2, sp2, true) := by
  induction ls with
  | nil => intro _ hex c sp mp; simp at hex
  | cons l ls ih =>
    intro hall hex c sp mp
    have hl := hall l (List.mem_cons_self l ls)
    have hall2 := fun x hx => hall x (List.mem_cons_of_mem l hx)
    simp only [allowedRel, Bool.or_eq_true, beq_iff_eq] at hl
    rcases hl with ((h | h) | h) | h
    · rw [scanLinks, if_pos (by simp [h])]
      exact scanLinks_stays_fetched ls hall2 [l.cursorParam] (sp + 1)
    all_goals
      rw [scanLinks, if_neg (by simp [h]), if_pos (by simp [h])]
    all_goals
      refine ih hall2 ?_ c sp mp
    all_goals
      rcases hex with ⟨x, hx, hxr⟩
      rcases List.mem_cons.mp hx with rfl | hx2
      · rw [hxr] at h; simp at h
      · exact ⟨x, hx2, hxr⟩

lemma scanLinks_abort (ls : List Link) :
    (∃ l ∈ ls, allowedRel l.rel = false) →
    ∀ (c : CursorV) (sp : Nat) (mp : Bool), scanLinks ls c sp mp = none := by
  induction ls with
  | nil => intro hex; simp at hex
  | cons l ls ih =>
    intro hex c sp mp
    by_cases hl : allowedRel l.rel = true
    · have hex2 : ∃ x ∈ ls, allowedRel x.rel = false := by
        rcases hex with ⟨x, hx, hxr⟩
        rcases List.mem_cons.mp hx with rfl | hx2
        · rw [hl] at hxr; simp at hxr
        · exact ⟨x, hx2, hxr⟩
      simp only [allowedRel, Bool.or_eq_true, beq_iff_eq] at hl
      rcases hl with ((h | h) | h) | h
      · rw [scanLinks, if_pos (by simp [h])]
        exact ih hex2 _ _ _
      all_goals
        rw [scanLinks, if_neg (by simp [h]), if_pos (by simp [h])]
      all_goals
        exact ih hex2 c sp mp
    · have hl2 : allowedRel l.rel = false := by
        cases hr : allowedRel l.rel
        · rfl
        · exact absurd hr hl
      simp only [allowedRel, Bool.or_eq_false_iff, beq_eq_false_iff_ne, ne_eq] at hl2
      rw [scanLinks, if_neg (by simp [hl2.1.1.1]),
        if_neg (by simp [hl2.1.1.2, hl2.1.2, hl2.2])]

lemma RetrieveSuppListToFile_step (fetch : Nat → Option Page) (fuel : Nat) (st : RetState)
    (pg : Page) (hf : fetch st.pagesFetched = some pg) :
    RetrieveSuppListToFile fetch (fuel + 1) st
      = (let st1 : RetState :=
           { cursor := st.cursor
             suppPage := st.suppPage
             written := st.written ++ pg.results
             totalReports :=
               if st.cursor = .initial then st.totalReports ++ [pg.total_count]
               else st.totalReports
             pagesFetched := st.pagesFetched + 1 }
         match scanLinks pg.links st1.cursor st1.suppPage false with
         | none => .aborted st1
         | some (c, sp, mp) =>
           let st2 := { st1 with cursor := c, suppPage := sp }
           if mp then RetrieveSuppListToFile fetch fuel st2 else .ok st2) := by
  rw [RetrieveSuppListToFile, hf]

lemma RetrieveSuppListToFile_run (fetch : Nat → Option Page) (ps : List Page) :
    ∀ (st : RetState) (cs : List String),
      st.cursor = .fetched cs →
      (∀ i (h : i < ps.length), fetch (st.pagesFetched + i) = some (ps.get ⟨i, h⟩)) →
      (∀ p ∈ ps, ∀ l ∈ p.links, allowedRel l.rel = true) →
      (∀ i (h : i < ps.length),
        hasNextLink (ps.get ⟨i, h⟩).links = decide (i + 1 < ps.length)) →
      ps ≠ [] →
      ∃ st2, RetrieveSuppListToFile fetch ps.length st = .ok st2 ∧
        st2.written = st.written ++ (ps.map Page.results).join ∧
        st2.totalReports = st.totalReports ∧
        st2.pagesFetched = st.pagesFetched + ps.length := by
  induction ps with
  | nil => intro st cs hc hf hall hnext hne; exact absurd rfl hne
  | cons p rest ih =>
    intro st cs hc hf hall hnext hne
    have hf0 : fetch st.pagesFetched = some p := by simpa using hf 0 (by simp)
    have hallp : ∀ l ∈ p.links, allowedRel l.rel = true :=
      hall p (List.mem_cons_self p rest)
    have hall2 : ∀ q ∈ rest, ∀ l ∈ q.links, allowedRel l.rel = true :=
      fun q hq => hall q (List.mem_cons_of_mem p hq)
    rw [show (p :: rest).length = rest.length + 1 from rfl,
      RetrieveSuppListToFile_step fetch rest.length st p hf0]
    simp only [hc]
    cases rest with
    | nil =>
      have hnop : hasNextLink p.links = false := by simpa using hnext 0 (by simp)
      have hno : ∀ l ∈ p.links, ¬ l.rel = "next" := by
        simpa [hasNextLink, List.any_eq_false] using hnop
      rw [scanLinks_no_next p.links hallp hno _ _ _]
      refine ⟨_, rfl, ?_, ?_, ?_⟩ <;> simp
    | cons q rest2 =>
      have hnxp : ∃ l ∈ p.links, l.rel = "next" := by
        have := hnext 0 (by simp)
        simp only [List.get] at this
        have h2 : hasNextLink p.links = true := by
          rw [this]
          simp
        simpa [hasNextLink, List.any_eq_true] using h2
      obtain ⟨cs2, sp2, hscan⟩ := scanLinks_with_next p.links hallp hnxp (.fetched cs) st.suppPage false
      rw [hscan]
      simp only [if_pos]
      obtain ⟨st2, hrun, hw, ht, hp⟩ := ih
        { cursor := .fetched cs2, suppPage := sp2,
          written := st.written ++ p.results,
          totalReports := st.totalReports,
          pagesFetched := st.pagesFetched + 1 }
        cs2 rfl
        (by
          intro i h
          have harith : st.pagesFetched + 1 + i = st.pagesFetched + (i + 1) := by omega
          have h2 := hf (i + 1) (by simpa using Nat.succ_lt_succ h)
          simpa [harith] using h2)
        hall2
        (by
          intro i h
          have h2 := hnext (i + 1) (by simpa using Nat.succ_lt_succ h)
          rw [show ((p :: q :: rest2).get ⟨i + 1, _⟩) = ((q :: rest2).get ⟨i, h⟩) from rfl] at h2
          rw [h2]
          rw [decide_eq_decide]
          constructor
          · intro _; simpa using Nat.lt_of_succ_lt_succ (by simpa using ‹i + 1 + 1 < (p :: q :: rest2).length›)
          · intro hh; simpa using Nat.succ_lt_succ hh)
        (by simp)
      refine ⟨st2, ?_, ?_, ?_, ?_⟩
      · exact hrun
      · rw [hw]
        simp [List.join, List.append_assoc]
      · exact ht
      · rw [hp]
        simp only [List.length_cons]
        omega

/-- Claim C4: for a finite sequence of pages in which every page but
the last carries a `next` link (and otherwise only `first`, `last` or
`previous` links, which are ignored), `RetrieveSuppListToFile`
starting from the initial cursor issues exactly one GET per page,
writes each page's results to the output in arrival order, reports
`total_count` from the first page only, and terminates after consuming
exactly that many pages; and whenever a fetched page contains a link
with any other relation, the run aborts. -/
theorem retrieve_pagination (fetch : Nat → Option Page) (ps : List Page)
    (hne : ps ≠ [])
    (hfetch : ∀ i (h : i < ps.length), fetch i = some (ps.get ⟨i, h⟩))
    (hall : ∀ p ∈ ps, ∀ l ∈ p.links, allowedRel l.rel = true)
    (hnext : ∀ i (h : i < ps.length),
      hasNextLink (ps.get ⟨i, h⟩).links = decide (i + 1 < ps.length)) :
    (∃ st2, RetrieveSuppListToFile fetch ps.length initRetState = .ok st2 ∧
      st2.pagesFetched = ps.length ∧
      st2.written = (ps.map Page.results).join ∧
      st2.totalReports = [(ps.head hne).total_count]) ∧
    (∀ (fetch2 : Nat → Option Page) (fuel : Nat) (st : RetState) (pg : Page),
      fetch2 st.pagesFetched = some pg →
      (∃ l ∈ pg.links, allowedRel l.rel = false) →
      ∃ stA, RetrieveSuppListToFile fetch2 (fuel + 1) st = .aborted stA) := by
  constructor
  · cases ps with
    | nil => exact absurd rfl hne
    | cons p rest =>
      have hf0 : fetch 0 = some p := by simpa using hfetch 0 (by simp)
      have hallp : ∀ l ∈ p.links, allowedRel l.rel = true :=
        hall p (List.mem_cons_self p rest)
      have hall2 : ∀ q ∈ rest, ∀ l ∈ q.links, allowedRel l.rel = true :=
        fun q hq => hall q (List.mem_cons_of_mem p hq)
      rw [show (p :: rest).length = rest.length + 1 from rfl,
        RetrieveSuppListToFile_step fetch rest.length initRetState p hf0]
      simp only [initRetState]
      cases rest with
      | nil =>
        have hnop : hasNextLink p.links = false := by simpa using hnext 0 (by simp)
        have hno : ∀ l ∈ p.links, ¬ l.rel = "next" := by
          simpa [hasNextLink, List.any_eq_false] using hnop
        rw [scanLinks_no_next p.links hallp hno _ _ _]
        refine ⟨_, rfl, ?_, ?_, ?_⟩ <;> simp
      | cons q rest2 =>
        have hnxp : ∃ l ∈ p.links, l.rel = "next" := by
          have := hnext 0 (by simp)
          simp only [List.get] at this
          have h2 : hasNextLink p.links = true := by
            rw [this]
            simp
          simpa [hasNextLink, List.any_eq_true] using h2
        obtain ⟨cs2, sp2, hscan⟩ := scanLinks_with_next p.links hallp hnxp .initial 1 false
        rw [hscan]
        simp only [if_pos]
        obtain ⟨st2, hrun, hw, ht, hp⟩ := RetrieveSuppListToFile_run fetch (q :: rest2)
          { cursor := .fetched cs2, suppPage := sp2,
            written := [] ++ p.results,
            totalReports := [] ++ [p.total_count],
            pagesFetched := 0 + 1 }
          cs2 rfl
          (by
            intro i h
            have h2 := hfetch (i + 1) (by simpa using Nat.succ_lt_succ h)
            simpa [Nat.add_comm] using h2)
          hall2
          (by
            intro i h
            have h2 := hnext (i + 1) (by simpa using Nat.succ_lt_succ h)
            rw [show ((p :: q :: rest2).get ⟨i + 1, _⟩) = ((q :: rest2).get ⟨i, h⟩) from rfl] at h2
            rw [h2]
            rw [decide_eq_decide]
            constructor
            · intro _; simpa using Nat.lt_of_succ_lt_succ
                (by simpa using ‹i + 1 + 1 < (p :: q :: rest2).length›)
            · intro hh; simpa using Nat.succ_lt_succ hh)
          (by simp)
        refine ⟨st2, hrun, ?_, ?_, ?_⟩
        · rw [hp]
          simp only [List.length_cons]
          omega
        · rw [hw]
          simp [List.join, List.append_assoc]
        · rw [ht]
          simp
  · intro fetch2 fuel st pg hf2 hbad
    rw [RetrieveSuppListToFile_step fetch2 fuel st pg hf2]
    simp only [scanLinks_abort pg.links hbad]
    exact ⟨_, rfl⟩

/-- Witness for C4 at concrete inputs: two synthetic pages (the first
with `next` and `last` links, the second with only `first`) are fully
consumed in two GETs with the total reported once, and a page with an
unknown link relation aborts the run. -/
theorem retrieve_pagination_witness :
    (∃ st2, RetrieveSuppListToFile fetchDemo 2 initRetState = .ok st2 ∧
      st2.pagesFetched = 2 ∧ st2.written = [1, 2, 3] ∧ st2.totalReports = [5]) ∧
    (∃ stA, RetrieveSuppListToFile (fun _ => some ⟨[9], 1, [⟨"self", "z"⟩]⟩) 1 initRetState
      = .aborted stA) := by
  have h := retrieve_pagination fetchDemo psDemo (by decide)
    (by decide)
    (by decide)
    (by decide)
  constructor
  · obtain ⟨st2, h1, h2, h3, h4⟩ := h.1
    exact ⟨st2, h1, h2, by simpa using h3, by simpa using h4⟩
  · exact h.2 (fun _ => some ⟨[9], 1, [⟨"self", "z"⟩]⟩) 0 initRetState ⟨[9], 1, [⟨"self", "z"⟩]⟩
      rfl ⟨⟨"self", "z"⟩, by simp, by decide⟩

end SparkySuppress
